import Mathlib

/-!
Verification of the markdown slide generator (`src/generate-slides.js`).

The development shallowly embeds the two-stage pipeline of the program:
the line-by-line parser `parseMarkdown` (source lines 83–237) and the
renderer `generateHTML` (source lines 240–368), together with the helper
`escapeHtml` (lines 71–80) and the single-shot run control flow of
`generateSlides` (lines 960–973, 1043–1046).

JavaScript strings are modelled as Lean `String` values, and the handful of
JavaScript primitives the program uses (`trim`, `split`, `startsWith`,
`includes`, the concrete regular expressions) are given explicit executable
definitions over `List Char` below, each annotated with the JavaScript
expression it translates.
-/

set_option maxRecDepth 16384

/-- The character class of JavaScript's `\s`, `String.prototype.trim` and
friends: ASCII whitespace, NBSP, the Unicode space separators, line and
paragraph separators, and the BOM. -/
def jsWhitespaceChar (c : Char) : Bool :=
  c = ' ' || c = '\t' || c = '\n' || c = '\r' || c = '\x0b' || c = '\x0c' ||
  c = ' ' || c = ' ' || c = ' ' || c = ' ' || c = ' ' ||
  c = ' ' || c = ' ' || c = ' ' || c = ' ' || c = ' ' ||
  c = ' ' || c = ' ' || c = ' ' || c = ' ' || c = ' ' ||
  c = ' ' || c = ' ' || c = '　' || c = '﻿'

/-- JavaScript `String.prototype.trim` on a character list: drop the
whitespace characters from both ends. -/
def jsTrimList (l : List Char) : List Char :=
  ((l.dropWhile jsWhitespaceChar).reverse.dropWhile jsWhitespaceChar).reverse

/-- JavaScript `s.trim()`. -/
def jsTrim (s : String) : String :=
  String.mk (jsTrimList s.toList)

/-- JavaScript `s.startsWith(p)`. -/
def jsStartsWith (s p : String) : Bool :=
  List.isPrefixOf p.toList s.toList

/-- JavaScript `s.split(sep)` for a one-character separator (the program
only ever splits on `'\n'`, `'('` and `'—'`).  `split` on the empty string
yields `[""]`, and consecutive separators yield empty pieces, exactly as in
JavaScript. -/
def splitOnChar (sep : Char) : List Char → List (List Char)
  | [] => [[]]
  | c :: rest =>
    let r := splitOnChar sep rest
    if c = sep then [] :: r
    else
      match r with
      | a :: as => (c :: a) :: as
      | [] => [[c]]

/-- Interleave a separator character between character-list pieces
(`parts.join(sep)` at list level). -/
def intercalateChar (sep : Char) : List (List Char) → List Char
  | [] => []
  | [p] => p
  | p :: q :: rest => p ++ sep :: intercalateChar sep (q :: rest)

/-- JavaScript `parts.join('\n')`. -/
def joinNL (xs : List String) : String :=
  String.mk (intercalateChar '\n' (xs.map String.toList))

/-- Occurrence of `needle` as a contiguous run inside a character list:
`needle` is a prefix of some suffix. -/
def listContainsSub (needle : List Char) : List Char → Bool
  | [] => decide (needle = [])
  | c :: rest => List.isPrefixOf needle (c :: rest) || listContainsSub needle rest

/-- JavaScript `haystack.includes(needle)` for a string needle. -/
def jsIncludes (haystack needle : String) : Bool :=
  listContainsSub needle.toList haystack.toList

/-! ## Data model

`Slide` records as built by `parseMarkdown` (source lines 103, 141–146,
154–159, 165, 177, 194): a `type` tag, a `title` (the empty string models
the absent/empty title, which the renderer treats uniformly through
JavaScript truthiness), and the ordered list of content blocks. -/

/-- A typed content block of a slide (`currentSlide.content` entries). -/
inductive ContentBlock where
  | subtitle (text : String)
  | listItem (text : String)
  | stat (key value : String)
  | image (alt src : String)
  | code (language text : String)
  | text (text : String)
deriving DecidableEq

/-- The `type` field of a slide object: `'title'`, `'section'` (spelled
`sect` since `section` is a Lean keyword), or `'content'`. -/
inductive SlideType where
  | title
  | sect
  | content
deriving DecidableEq

/-- One slide record. `title = ""` models both the missing title of a
`content` slide and an empty header title; the renderer only ever tests the
title for JavaScript truthiness, for which the two coincide. -/
structure Slide where
  type : SlideType
  title : String
  content : List ContentBlock
deriving DecidableEq

/-- The tag of a content block, used by the renderer's
`slide.content.filter(c => c.type === '…')` calls. -/
def ContentBlock.tag : ContentBlock → String
  | .subtitle _ => "subtitle"
  | .listItem _ => "list-item"
  | .stat _ _ => "stat"
  | .image _ _ => "image"
  | .code _ _ => "code"
  | .text _ => "text"

/-- The `text` payload of a block (`item.text` in the source; the renderer
only reads it from subtitle, list-item, code and text blocks). -/
def ContentBlock.textOf : ContentBlock → String
  | .subtitle t => t
  | .listItem t => t
  | .stat _ v => v
  | .image a _ => a
  | .code _ t => t
  | .text t => t

/-- The `key` payload of a stat block (`stat.key`). -/
def ContentBlock.keyOf : ContentBlock → String
  | .stat k _ => k
  | _ => ""

/-- The `language` payload of a code block (`item.language`). -/
def ContentBlock.langOf : ContentBlock → String
  | .code lang _ => lang
  | _ => ""

/-- The `src` payload of an image block (`item.src`). -/
def ContentBlock.srcOf : ContentBlock → String
  | .image _ s => s
  | _ => ""

/-! ## Parser (source lines 83–237) -/

/-- Parser state: the accumulator variables of `parseMarkdown`'s loop
(`slides`, `currentSlide`, `inCodeBlock`, `codeBlockContent`,
`codeBlockLang`, source lines 85–89). -/
structure PState where
  slides : List Slide
  currentSlide : Option Slide
  inCodeBlock : Bool
  codeBlockContent : List String
  codeBlockLang : String
deriving DecidableEq

/-- `if (!currentSlide) currentSlide = { type: 'content', content: [] }`
(source lines 102–104 and analogues): the slide to append to, lazily
created with kind `content` and no title. -/
def ensureSlide : Option Slide → Slide
  | some s => s
  | none => ⟨.content, "", []⟩

/-- Append a content block to the (lazily created) current slide
(`currentSlide.content.push(...)`). -/
def pushBlock (st : PState) (b : ContentBlock) : PState :=
  let s := ensureSlide st.currentSlide
  { st with currentSlide := some { s with content := s.content ++ [b] } }

/-- `if (currentSlide && currentSlide.content.length > 0)
slides.push(currentSlide)` — the slide-retention step run at every
boundary (source lines 129–131, 138–140, 151–153, 232–234). -/
def pushIfNonempty (slides : List Slide) : Option Slide → List Slide
  | some s => if 0 < s.content.length then slides ++ [s] else slides
  | none => slides

/-- `line.match(/^#\s+/)`: a `#` followed by at least one whitespace
character. -/
def isH1 (line : String) : Bool :=
  match line.toList with
  | '#' :: c :: _ => jsWhitespaceChar c
  | _ => false

/-- `line.match(/^##\s+/)`. -/
def isH2 (line : String) : Bool :=
  match line.toList with
  | '#' :: '#' :: c :: _ => jsWhitespaceChar c
  | _ => false

/-- `line.match(/^###\s+/)`. -/
def isH3 (line : String) : Bool :=
  match line.toList with
  | '#' :: '#' :: '#' :: c :: _ => jsWhitespaceChar c
  | _ => false

/-- `line.replace(/^#+\s+/ for k hashes, '')`: drop the `k` leading hash
marks and the whitespace run after them (the `\s+` of the anchored header
regular expressions is greedy). -/
def dropHeaderMark (k : Nat) (line : String) : String :=
  String.mk ((line.toList.drop k).dropWhile jsWhitespaceChar)

/-- Trimmed text before the first colon:
`line.substring(0, line.indexOf(':')).trim()` (source line 189). -/
def keyOfLine (line : String) : String :=
  jsTrim (String.mk (line.toList.takeWhile (· ≠ ':')))

/-- Trimmed text after the first colon:
`line.substring(line.indexOf(':') + 1).trim()` (source line 190). -/
def valOfLine (line : String) : String :=
  jsTrim (String.mk ((line.toList.dropWhile (· ≠ ':')).drop 1))

/-- The stat-detection rule (source lines 187–203): the line contains a
colon and does not start with `"http"`; the trimmed key is non-empty and
contains no space character (`!key.includes(' ')`); the trimmed value is
non-empty and satisfies `value.match(/[\d,]+/)`, i.e. contains at least one
decimal digit or comma. Returns the `(key, value)` payload when the rule
fires. -/
def statCheck (line : String) : Option (String × String) :=
  if line.toList.contains ':' = true ∧ jsStartsWith line "http" = false then
    let key := keyOfLine line
    let value := valOfLine line
    if key ≠ "" ∧ value ≠ "" ∧ key.toList.contains ' ' = false ∧
        value.toList.any (fun c => c.isDigit || c = ',') = true then
      some (key, value)
    else none
  else none

/-- The image rule `line.match(/!\[([^\]]*)\]\(([^)]+)\)/)` (source
line 206): scan for the first position where `![`, a possibly empty run of
non-`]` characters, `](`, a non-empty run of non-`)` characters, and `)`
match; return the two captured runs.  Failure at a position advances the
scan by one character, as the unanchored regular expression does. -/
def matchImageAux : List Char → Option (List Char × List Char)
  | [] => none
  | c :: rest =>
    if c = '!' then
      match rest with
      | '[' :: rest1 =>
        let alt := rest1.takeWhile (· ≠ ']')
        (match rest1.drop alt.length with
         | ']' :: '(' :: rest2 =>
           let src := rest2.takeWhile (· ≠ ')')
           if src ≠ [] then
             match rest2.drop src.length with
             | ')' :: _ => some (alt, src)
             | _ => matchImageAux rest
           else matchImageAux rest
         | _ => matchImageAux rest)
      | _ => matchImageAux rest
    else matchImageAux rest

/-- String-level wrapper for the image rule. -/
def imageMatch (line : String) : Option (String × String) :=
  (matchImageAux line.toList).map fun p => (String.mk p.1, String.mk p.2)

/-- One iteration of `parseMarkdown`'s `for (let line of lines)` loop
(source lines 91–229), with the branches in source order: fence toggling,
in-code-block collection, metadata skipping, slide break, `#` / `##`
headers, `###` subtitle, list item, stat, image, and plain text. -/
def parseLine (st : PState) (line : String) : PState :=
  if jsStartsWith line "```" = true then
    if st.inCodeBlock = false then
      { st with inCodeBlock := true,
                codeBlockLang := jsTrim (String.mk (line.toList.drop 3)),
                codeBlockContent := [] }
    else
      let st1 := pushBlock { st with inCodeBlock := false }
        (.code st.codeBlockLang (joinNL st.codeBlockContent))
      { st1 with codeBlockContent := [], codeBlockLang := "" }
  else if st.inCodeBlock = true then
    { st with codeBlockContent := st.codeBlockContent ++ [line] }
  else if jsStartsWith line "slides:" = true ∨ jsStartsWith line "Also share with" = true then
    st
  else if jsTrim line = "<hr>" ∨ jsTrim line = "---" then
    { st with slides := pushIfNonempty st.slides st.currentSlide, currentSlide := none }
  else if isH1 line = true then
    { st with slides := pushIfNonempty st.slides st.currentSlide,
              currentSlide := some ⟨.title, jsTrim (dropHeaderMark 1 line), []⟩ }
  else if isH2 line = true then
    { st with slides := pushIfNonempty st.slides st.currentSlide,
              currentSlide := some ⟨.sect, jsTrim (dropHeaderMark 2 line), []⟩ }
  else if isH3 line = true then
    pushBlock st (.subtitle (jsTrim (dropHeaderMark 3 line)))
  else if jsStartsWith line "- " = true then
    pushBlock st (.listItem (jsTrim (String.mk (line.toList.drop 2))))
  else
    match statCheck line with
    | some kv => pushBlock st (.stat kv.1 kv.2)
    | none =>
      match imageMatch line with
      | some p => pushBlock st (.image p.1 p.2)
      | none =>
        if jsTrim line ≠ "" then pushBlock st (.text (jsTrim line)) else st

/-- The initial parser state (source lines 85–89). -/
def initPState : PState := ⟨[], none, false, [], ""⟩

/-- `parseMarkdown(content)` (source lines 83–237): split the input on
newlines, fold the line handler over it, and finally retain the still-open
slide under the same non-empty-content rule (lines 232–234). -/
def parseMarkdown (content : String) : List Slide :=
  let st := ((splitOnChar '\n' content.toList).map String.mk).foldl parseLine initPState
  pushIfNonempty st.slides st.currentSlide

/-! ## Renderer (source lines 240–368) -/

/-- `escapeHtml`'s per-character replacement table (source lines 72–78):
the five HTML-sensitive characters map to their entities, every other
character to itself. -/
def escapeCharL (c : Char) : List Char :=
  if c = '&' then "&amp;".toList
  else if c = '<' then "&lt;".toList
  else if c = '>' then "&gt;".toList
  else if c = '"' then "&quot;".toList
  else if c = '\'' then "&#039;".toList
  else [c]

/-- `escapeHtml(text)` (source lines 71–80):
`text.replace(/[&<>"']/g, m => map[m])`. -/
def escapeHtml (text : String) : String :=
  String.mk ((text.toList.map escapeCharL).flatten)

/-- The percentage-suffix regular expression `/\(([\d.]+%)\)/` (source
line 283): scan for `(`, a non-empty run of digits and dots, `%`, `)`;
return the captured `digits-and-dots%` run, or `none` when the pattern
matches nowhere (in which case the JavaScript `match(...)[1]` dereferences
`null` and throws). -/
def matchPercentAux : List Char → Option (List Char)
  | [] => none
  | c :: rest =>
    if c = '(' then
      let run := rest.takeWhile (fun d => d.isDigit || d = '.')
      if run ≠ [] then
        match rest.drop run.length with
        | '%' :: ')' :: _ => some (run ++ ['%'])
        | _ => matchPercentAux rest
      else matchPercentAux rest
    else matchPercentAux rest

/-- The link-text regular expression `/\[([^\]]+)\]/` (source line 309):
scan for `[`, a non-empty run of non-`]` characters, `]`; return the
captured run, or `none` when the JavaScript match is `null`. -/
def matchBracketAux : List Char → Option (List Char)
  | [] => none
  | c :: rest =>
    if c = '[' then
      let run := rest.takeWhile (· ≠ ']')
      if run ≠ [] ∧ rest.drop run.length ≠ [] then some run
      else matchBracketAux rest
    else matchBracketAux rest

/-- The href regular expression `/\(([^)]+)\)/` (source line 310): scan for
`(`, a non-empty run of non-`)` characters, `)`. -/
def matchParenAux : List Char → Option (List Char)
  | [] => none
  | c :: rest =>
    if c = '(' then
      let run := rest.takeWhile (· ≠ ')')
      if run ≠ [] ∧ rest.drop run.length ≠ [] then some run
      else matchParenAux rest
    else matchParenAux rest

/-- `stats.replace(/(\d+,?\d*)/g, '<strong>$1</strong>')` (source
line 318), written with an explicit step budget to keep the recursion
structural: wrap every leftmost-longest run of digits, an optional comma,
and further digits in a `<strong>` element; scanning resumes after each
match.  Every step consumes at least one character, so a budget equal to
the input length (as supplied by `digitWrapAux`) never runs out. -/
def digitWrapGo : Nat → List Char → List Char
  | 0, l => l
  | _ + 1, [] => []
  | fuel + 1, c :: rest =>
    if c.isDigit then
      let ds := rest.takeWhile Char.isDigit
      match rest.dropWhile Char.isDigit with
      | ',' :: r =>
        let ds2 := r.takeWhile Char.isDigit
        "<strong>".toList ++ (c :: ds) ++ (',' :: ds2) ++ "</strong>".toList ++
          digitWrapGo fuel (r.dropWhile Char.isDigit)
      | r1 =>
        "<strong>".toList ++ (c :: ds) ++ "</strong>".toList ++ digitWrapGo fuel r1
    else c :: digitWrapGo fuel rest

/-- The digit-run wrapping `stats.replace(/(\d+,?\d*)/g, …)`. -/
def digitWrapAux (l : List Char) : List Char :=
  digitWrapGo l.length l

/-- The plain-list link-stripping replacement
`text.replace(/\[([^\]]+)\]\([^)]+\)/g, '<span class="highlight">$1</span>')`
(source line 330), with the same step-budget device: every occurrence of a
markdown link is replaced by a highlight span around its display text,
scanning left to right and resuming after each replacement. -/
def linkStripGo : Nat → List Char → List Char
  | 0, l => l
  | _ + 1, [] => []
  | fuel + 1, c :: rest =>
    if c = '[' then
      let txt := rest.takeWhile (· ≠ ']')
      match rest.drop txt.length with
      | ']' :: '(' :: r2 =>
        let url := r2.takeWhile (· ≠ ')')
        match r2.drop url.length with
        | ')' :: r3 =>
          if txt ≠ [] ∧ url ≠ [] then
            "<span class=\"highlight\">".toList ++ txt ++ "</span>".toList ++
              linkStripGo fuel r3
          else c :: linkStripGo fuel rest
        | _ => c :: linkStripGo fuel rest
      | _ => c :: linkStripGo fuel rest
    else c :: linkStripGo fuel rest

/-- The markdown-link stripping of the plain-list path. -/
def linkStripAux (l : List Char) : List Char :=
  linkStripGo l.length l

/-- The plain-list label replacement
`text.replace(/^([^—]+)—/, '<span class="highlight">$1</span> —')` (source
line 329): when the text has a non-empty em-dash-free prefix followed by an
em-dash, wrap that prefix in a highlight span; otherwise leave the text
unchanged. -/
def highlightLabel (t : String) : String :=
  let l := t.toList
  let pre := l.takeWhile (· ≠ '—')
  match l.drop pre.length with
  | '—' :: rest =>
    if pre ≠ [] then
      String.mk ("<span class=\"highlight\">".toList ++ pre ++ "</span> —".toList ++ rest)
    else t
  | _ => t

/-- JavaScript `s.toLowerCase()` (ASCII case folding; the marker phrase it
is compared against is ASCII). -/
def jsToLower (s : String) : String :=
  String.mk (s.toList.map Char.toLower)

/-- `line.startsWith('$')` wrapping for terminal code blocks (source
lines 347–352): a line beginning with the prompt character is wrapped in a
`terminal-prompt` span. -/
def wrapTerminalLine (l : String) : String :=
  if jsStartsWith l "$" then "<span class=\"terminal-prompt\">" ++ l ++ "</span>" else l

/-- The code text a code block embeds (source lines 343–353): the escaped
text, and for `terminal` blocks the per-line prompt wrapping. -/
def renderCodeText (language text : String) : String :=
  let escaped := escapeHtml text
  if language = "terminal" then
    joinNL (((splitOnChar '\n' escaped.toList).map String.mk).map wrapTerminalLine)
  else escaped

/-- One `<pre>` code block fragment (source line 354). -/
def renderCodeBlockHtml (b : ContentBlock) : String :=
  "            <pre class=\"code-block" ++
  (if b.langOf ≠ "" then " language-" ++ b.langOf else "") ++
  "\"><code>" ++ renderCodeText b.langOf b.textOf ++ "</code></pre>\n"

/-- The `value` payload of a stat block (`stat.value`). -/
def ContentBlock.valueOf : ContentBlock → String
  | .stat _ v => v
  | _ => ""

/-- The inner HTML of one stat card (source lines 285–291), given the main
value, the key (underscores replaced by spaces) and the already rendered
percentage line. -/
def statCardHtml (key mainValue pctLine : String) : String :=
  "                <div class=\"stat-card\">\n" ++
  "                    <span class=\"big-number\">" ++ mainValue ++ "</span>\n" ++
  "                    <span>" ++ String.mk (key.toList.map (fun c => if c = '_' then ' ' else c)) ++
  "</span>\n" ++ pctLine ++ "                </div>\n"

/-- One stat card (source lines 279–292).  When the value contains `(` and
`%)` the main value is the trimmed text before the first `(` and the
percentage is extracted with `/\(([\d.]+%)\)/`; `none` models the
`TypeError` thrown by `value.match(...)[1]` when that extraction fails. -/
def renderStatCard (key value : String) : Option String :=
  let hasPct := value.toList.contains '(' && jsIncludes value "%)"
  let mainValue := if hasPct then jsTrim (String.mk ((splitOnChar '(' value.toList).headD [])) else value
  if hasPct then
    match matchPercentAux value.toList with
    | some p =>
      some (statCardHtml key mainValue
        ("                    <span class=\"percentage\">(" ++ String.mk p ++ ")</span>\n"))
    | none => none
  else some (statCardHtml key mainValue "")

/-- One ranked-grid item (source lines 304–320).  The item text is split on
every em-dash and trimmed; only a split of exactly two parts produces an
item card (`if (parts.length === 2)`), any other split contributes nothing
(`some ""`).  A name containing `](` is treated as a markdown link;
`none` models the `TypeError` thrown when either capture is `null`. -/
def renderRankedItem (t : String) : Option String :=
  match (splitOnChar '—' t.toList).map (fun p => jsTrim (String.mk p)) with
  | [name, stats] =>
    let statsHtml := String.mk (digitWrapAux stats.toList)
    if jsIncludes name "](" then
      match matchBracketAux name.toList, matchParenAux name.toList with
      | some dn, some hf =>
        some ("                <div class=\"top-item\">\n" ++
              "                    <a href=\"" ++ String.mk hf ++ "\" class=\"domain\">" ++
              String.mk dn ++ "</a>\n" ++
              "                    <span>" ++ statsHtml ++ "</span>\n" ++
              "                </div>\n")
      | _, _ => none
    else
      some ("                <div class=\"top-item\">\n" ++
            "                    <span style=\"color: #7878EF; font-weight: 700;\">" ++ name ++
            "</span>\n" ++
            "                    <span>" ++ statsHtml ++ "</span>\n" ++
            "                </div>\n")
  | _ => some ""

/-- `const isRankedList = listItems.some(item => item.text.includes('—') &&
/\d+/.test(item.text))` (source line 299). -/
def isRankedList (items : List ContentBlock) : Bool :=
  items.any fun it => it.textOf.toList.contains '—' && it.textOf.toList.any Char.isDigit

/-- The grid-branch condition `isRankedList && listItems.length <= 6`
(source line 301). -/
def usesRankedGrid (items : List ContentBlock) : Bool :=
  isRankedList items && decide (items.length ≤ 6)

/-- The list part of a slide (source lines 297–335): a ranked grid when
`usesRankedGrid` holds, otherwise a plain `<ul>` whose items get the label
highlight and have markdown links stripped to highlight spans. -/
def renderListSection (items : List ContentBlock) : Option String :=
  if 0 < items.length then
    if usesRankedGrid items then
      (items.mapM fun it => renderRankedItem it.textOf).map fun parts =>
        "            <div class=\"top-list\">\n" ++ String.join parts ++ "            </div>\n"
    else
      some ("            <ul>\n" ++
        String.join (items.map fun it =>
          "                <li>" ++ String.mk (linkStripAux (highlightLabel it.textOf).toList) ++
          "</li>\n") ++
        "            </ul>\n")
  else some ""

/-- `slide.content.filter(c => c.type === t)` (source lines 259–264). -/
def tagFilter (t : String) (l : List ContentBlock) : List ContentBlock :=
  l.filter fun b => decide (b.tag = t)

/-- `c.type === 'code' && c.language === 'terminal'` (source line 245). -/
def isTerminalCodeB : ContentBlock → Bool
  | .code lang _ => decide (lang = "terminal")
  | _ => false

/-- The fragment for one slide given its style data and its six content
groups (source lines 241–367): the container with its class flags, the
title, the divider, then — in this fixed order — subtitles, the stat grid,
the list layout, text paragraphs, code blocks and images, and the closing
logo/slide-number boilerplate.  `none` models a `TypeError` escaping from
the stat or ranked-item rendering. -/
def renderSlideCore (ty : SlideType) (title : String) (isTerminal : Bool)
    (subs stats lis txs cods imgs : List ContentBlock) (i n : Nat) : Option String :=
  let isPopQuiz := decide (title ≠ "") && jsIncludes (jsToLower title) "pop quiz warning"
  let headHtml :=
    "    <div class=\"slide" ++ (if ty = .title then " intro-slide" else "") ++
    (if isPopQuiz then " pop-quiz-warning" else "") ++
    (if isTerminal then " terminal-slide" else "") ++ "\">\n" ++
    "        <div class=\"content\">\n" ++
    (if title ≠ "" then
      (if ty = .title then "            <h1>" ++ title ++ "</h1>\n"
       else "            <h2>" ++ title ++ "</h2>\n")
     else "") ++
    (if ty = .title ∧ 0 < txs.length then "            <div class=\"divider\"></div>\n" else "")
  let subsHtml := String.join (subs.map fun it => "            <h3>" ++ it.textOf ++ "</h3>\n")
  let statsHtml : Option String :=
    if 0 < stats.length then
      (stats.mapM fun b => renderStatCard b.keyOf b.valueOf).map fun cards =>
        "            <div class=\"stat-grid\">\n" ++ String.join cards ++ "            </div>\n"
    else some ""
  let listHtml := renderListSection lis
  let txsHtml := String.join (txs.map fun it => "            <p>" ++ it.textOf ++ "</p>\n")
  let codsHtml := String.join (cods.map renderCodeBlockHtml)
  let imgsHtml := String.join (imgs.map fun it =>
    "            <img src=\"" ++ it.srcOf ++ "\" alt=\"" ++ it.textOf ++
    "\" class=\"slide-image\">\n")
  let tailHtml :=
    "        </div>\n" ++
    "        <img src=\"favicon.png\" alt=\"Logo\" class=\"slide-logo\">\n" ++
    "        <span class=\"slide-number\">" ++ Nat.repr (i + 1) ++ "/" ++ Nat.repr n ++
    "</span>\n" ++
    "    </div>\n\n"
  match statsHtml, listHtml with
  | some sh, some lh =>
    some (headHtml ++ subsHtml ++ sh ++ lh ++ txsHtml ++ codsHtml ++ imgsHtml ++ tailHtml)
  | _, _ => none

/-- The fragment for one slide (source lines 241–367): the six groups are
the type filters of the slide's content, and the terminal flag is
`!slide.title && slide.content.some(...)`. -/
def renderSlide (s : Slide) (i n : Nat) : Option String :=
  renderSlideCore s.type s.title
    (decide (s.title = "") && s.content.any isTerminalCodeB)
    (tagFilter "subtitle" s.content) (tagFilter "stat" s.content)
    (tagFilter "list-item" s.content) (tagFilter "text" s.content)
    (tagFilter "code" s.content) (tagFilter "image" s.content) i n

/-- `slides.map((slide, index) => …).join('')` (source lines 241–368): the
concatenation of all slide fragments, `none` when any of them throws. -/
def slideFragments (slides : List Slide) : Option String :=
  (slides.enum.mapM fun p => renderSlide p.2 p.1 slides.length).map String.join

/-- A slide's content regrouped into the renderer's fixed category order
(subtitles, stats, list items, texts, code, images), each category keeping
its original relative order. -/
def regroupContent (l : List ContentBlock) : List ContentBlock :=
  tagFilter "subtitle" l ++ tagFilter "stat" l ++ tagFilter "list-item" l ++
  tagFilter "text" l ++ tagFilter "code" l ++ tagFilter "image" l

/-! ## Single-shot run (source lines 960–973 and 1043–1046) -/

/-- Observable outcome of one single-shot run: the process exit code,
whether `OUTPUT_FILE` was written, whether an error was reported via
`console.error`, and the slide count reported in the success message. -/
structure RunOutcome where
  exitCode : Nat
  fileWritten : Bool
  errorReported : Bool
  reportedCount : Option Nat
deriving DecidableEq

/-- The single-shot run, as a function of the result of
`fs.readFileSync(MARKDOWN_FILE)` (source lines 960–973 and the plain
`generateSlides()` call of line 1045).  A read failure throws into the
`catch`, which reports the error and returns `false`; nothing is written.
A `TypeError` thrown inside `generateHTML` is caught the same way, before
`fs.writeFileSync` runs.  On success the file is written and the slide
count is reported.  In every case the caller discards the boolean result,
so the process exits with code `0`. -/
def singleShotRun (readResult : Except String String) : RunOutcome :=
  match readResult with
  | .error _ => ⟨0, false, true, none⟩
  | .ok md =>
    let slides := parseMarkdown md
    match slideFragments slides with
    | none => ⟨0, false, true, none⟩
    | some _ => ⟨0, true, false, some slides.length⟩

/-! ## Theorems -/

theorem pushBlock_slides (st : PState) (b : ContentBlock) : (pushBlock st b).slides = st.slides :=
  rfl

theorem parseLine_slides_cases (st : PState) (line : String) :
    (parseLine st line).slides = st.slides ∨
    (parseLine st line).slides = pushIfNonempty st.slides st.currentSlide := by
  unfold parseLine
  repeat' split
  all_goals simp [pushBlock]

theorem mem_pushIfNonempty {slides : List Slide} {cur : Option Slide} {s' : Slide} :
    s' ∈ pushIfNonempty slides cur ↔
      s' ∈ slides ∨ ∃ c, cur = some c ∧ s' = c ∧ c.content ≠ [] := by
  cases cur with
  | none => simp [pushIfNonempty]
  | some c =>
    simp only [pushIfNonempty]
    split
    · rename_i h
      have hne : c.content ≠ [] := List.length_pos.mp h
      simp [List.mem_append, hne]
    · rename_i h
      have he : c.content = [] := by
        by_contra hne
        exact h (List.length_pos.mpr hne)
      simp [he]

theorem parseLine_inv {st : PState} {line : String}
    (h : ∀ s ∈ st.slides, s.content ≠ []) :
    ∀ s ∈ (parseLine st line).slides, s.content ≠ [] := by
  rcases parseLine_slides_cases st line with hc | hc <;> rw [hc]
  · exact h
  · intro s hs
    rcases mem_pushIfNonempty.mp hs with h1 | ⟨c, _, rfl, hne⟩
    · exact h s h1
    · exact hne

theorem foldl_parseLine_inv :
    ∀ (lines : List String) (st : PState), (∀ s ∈ st.slides, s.content ≠ []) →
      ∀ s ∈ (lines.foldl parseLine st).slides, s.content ≠ [] := by
  intro lines
  induction lines with
  | nil => intro st h; exact h
  | cons l ls ih => intro st h; exact ih _ (parseLine_inv h)

/-- C1: a slide is in the parser's output exactly when its block list is
non-empty at its closing boundary.  Part one: every slide `parseMarkdown`
returns has non-empty content (so a header whose slide never receives a
block is dropped, title and all).  Part two: the boundary step
`pushIfNonempty` retains the open slide exactly when its content is
non-empty.  Parts three and four: a header line immediately followed by
another header line contributes no slide — with trailing content only the
second header's slide survives. -/
theorem parseMarkdown_retention :
    (∀ content : String, ∀ s ∈ parseMarkdown content, s.content ≠ []) ∧
    (∀ (slides : List Slide) (cur : Option Slide) (s' : Slide),
      s' ∈ pushIfNonempty slides cur ↔
        s' ∈ slides ∨ ∃ c, cur = some c ∧ s' = c ∧ c.content ≠ []) ∧
    parseMarkdown "# First\n## Second" = [] ∧
    parseMarkdown "# First\n## Second\nhello" = [⟨.sect, "Second", [.text "hello"]⟩] := by
  refine ⟨?_, fun _ _ _ => mem_pushIfNonempty, by decide, by decide⟩
  intro content s hs
  simp only [parseMarkdown] at hs
  rcases mem_pushIfNonempty.mp hs with h1 | ⟨c, _, rfl, hne⟩
  · exact foldl_parseLine_inv _ initPState (by intro s h; simp [initPState] at h) s h1
  · exact hne

/-- C1 witness: the single-line input `"hi"` produces one retained slide,
whose content is non-empty by the theorem. -/
theorem parseMarkdown_retention_witness :
    (⟨SlideType.content, "", [ContentBlock.text "hi"]⟩ : Slide) ∈ parseMarkdown "hi" ∧
    (⟨SlideType.content, "", [ContentBlock.text "hi"]⟩ : Slide).content ≠ [] :=
  ⟨by decide, parseMarkdown_retention.1 "hi" _ (by decide)⟩

/-- C4: a line consumed while the code-block flag is set (and which is not
itself a fence delimiter) only extends the collected code text: the output
slide list and the open slide — hence every subtitle, list-item and stat
block — are exactly those of the previous state. -/
theorem inCodeBlock_line_adds_no_blocks :
    ∀ (st : PState) (line : String), st.inCodeBlock = true →
      jsStartsWith line "```" = false →
      (parseLine st line).slides = st.slides ∧
      (parseLine st line).currentSlide = st.currentSlide ∧
      (parseLine st line).codeBlockContent = st.codeBlockContent ++ [line] := by
  intro st line h1 h2
  simp [parseLine, h1, h2]

/-- C4 witness: a list-looking line inside an open fence leaves the slides
and the open slide untouched. -/
theorem inCodeBlock_line_adds_no_blocks_witness :
    (parseLine ⟨[], none, true, [], "js"⟩ "- item").slides = [] ∧
    (parseLine ⟨[], none, true, [], "js"⟩ "- item").currentSlide = none ∧
    (parseLine ⟨[], none, true, [], "js"⟩ "- item").codeBlockContent = [] ++ ["- item"] :=
  inCodeBlock_line_adds_no_blocks ⟨[], none, true, [], "js"⟩ "- item" rfl (by decide)

/-- C3 counterexample: the claim requires ALL list items to contain an
em-dash and a digit for the grid layout, but the code tests `.some(...)`:
a slide whose second item `"b"` contains neither still takes the grid
branch. -/
theorem rankedGrid_not_all_counterexample :
    usesRankedGrid [.listItem "a — 1", .listItem "b"] = true ∧
    (("b" : String).toList.contains '—' && ("b" : String).toList.any Char.isDigit) = false := by
  decide

/-- C3 amended: the grid layout is used iff SOME list item contains an
em-dash together with a digit and the slide has at most 6 list items; a
slide of exactly 6 qualifying items uses the grid, one of 7 does not. -/
theorem rankedGrid_characterization :
    (∀ items : List ContentBlock,
      usesRankedGrid items = true ↔
        ((∃ it ∈ items, it.textOf.toList.contains '—' = true ∧
            it.textOf.toList.any Char.isDigit = true) ∧ items.length ≤ 6)) ∧
    usesRankedGrid (List.replicate 6 (.listItem "pkg — 1")) = true ∧
    usesRankedGrid (List.replicate 7 (.listItem "pkg — 1")) = false := by
  refine ⟨?_, by decide, by decide⟩
  intro items
  simp [usesRankedGrid, isRankedList, List.any_eq_true]

/-- C7 counterexample: an item text containing em-dashes and a digit that
the claim says is rendered (split on the FIRST em-dash), but which the
code — splitting on every em-dash and requiring exactly two parts —
renders as nothing at all. -/
theorem rankedItem_two_dashes_counterexample :
    ("a — b — 1" : String).toList.contains '—' = true ∧
    ("a — b — 1" : String).toList.any Char.isDigit = true ∧
    renderRankedItem "a — b — 1" = some "" := by
  decide

/-- C7 amended: a ranked item's text is split on EVERY em-dash; only a
split of exactly two parts renders a card (anything else contributes
nothing); a non-link name renders as the plain emphasized span with the
digit runs of the stats part wrapped; a markdown-link name renders as a
hyperlink with the captured display text and href. -/
theorem rankedItem_characterization :
    (∀ t : String, (splitOnChar '—' t.toList).length ≠ 2 → renderRankedItem t = some "") ∧
    (∀ (t name stats : String),
      (splitOnChar '—' t.toList).map (fun p => jsTrim (String.mk p)) = [name, stats] →
      jsIncludes name "](" = false →
      renderRankedItem t = some ("                <div class=\"top-item\">\n" ++
        "                    <span style=\"color: #7878EF; font-weight: 700;\">" ++ name ++
        "</span>\n" ++
        "                    <span>" ++ String.mk (digitWrapAux stats.toList) ++ "</span>\n" ++
        "                </div>\n")) ∧
    renderRankedItem "[Rails](https://r.io) — 1,234 stars" =
      some ("                <div class=\"top-item\">\n" ++
        "                    <a href=\"https://r.io\" class=\"domain\">Rails</a>\n" ++
        "                    <span><strong>1,234</strong> stars</span>\n" ++
        "                </div>\n") ∧
    renderRankedItem "rails — 99 uses" =
      some ("                <div class=\"top-item\">\n" ++
        "                    <span style=\"color: #7878EF; font-weight: 700;\">rails</span>\n" ++
        "                    <span><strong>99</strong> uses</span>\n" ++
        "                </div>\n") := by
  refine ⟨?_, ?_, by decide, by decide⟩
  · intro t h
    unfold renderRankedItem
    rcases hm : (splitOnChar '—' t.toList).map (fun p => jsTrim (String.mk p)) with
      _ | ⟨a, _ | ⟨b, _ | _⟩⟩
    · rfl
    · rfl
    · exfalso
      apply h
      have := congrArg List.length hm
      simpa using this
    · rfl
  · intro t name stats hm hl
    unfold renderRankedItem
    rw [hm]
    simp [hl]

/-- C7 amended witness: a three-part item renders as nothing. -/
theorem rankedItem_characterization_witness :
    renderRankedItem "x — y — 2" = some "" :=
  rankedItem_characterization.1 "x — y — 2" (by decide)

/-- C8: rendering is not total.  A stat whose value contains `(` and `%)`
but no parenthesized digits-and-dots percentage (the stat line
`cpu: 5 (high%)`) makes the percentage extraction dereference a null
match, and a ranked item whose name contains `](` but no non-empty
bracketed text does the same, so the renderer throws instead of returning
a document. -/
theorem renderer_null_match_throws :
    parseMarkdown "cpu: 5 (high%)" = [⟨.content, "", [.stat "cpu" "5 (high%)"]⟩] ∧
    renderStatCard "cpu" "5 (high%)" = none ∧
    slideFragments (parseMarkdown "cpu: 5 (high%)") = none ∧
    renderRankedItem "[](x — 1" = none := by
  decide

/-- C9: parsing and fragment rendering are deterministic functions of
their input: equal inputs produce equal slide sequences and byte-identical
fragment strings (the embedded `slideFragments` takes no clock and no
randomness). -/
theorem pipeline_deterministic :
    (∀ a b : String, a = b → parseMarkdown a = parseMarkdown b) ∧
    (∀ u v : List Slide, u = v → slideFragments u = slideFragments v) :=
  ⟨fun _ _ h => h ▸ rfl, fun _ _ h => h ▸ rfl⟩

/-- C9 witness at a concrete input. -/
theorem pipeline_deterministic_witness :
    parseMarkdown "# T\nx" = parseMarkdown "# T\nx" ∧
    slideFragments [⟨.title, "T", [.text "x"]⟩] = slideFragments [⟨.title, "T", [.text "x"]⟩] :=
  ⟨pipeline_deterministic.1 _ _ rfl, pipeline_deterministic.2 _ _ rfl⟩

/-- C10 counterexample: on a read failure the single-shot run reports the
error and writes nothing, but the process exits with code 0 — not the
non-zero signal the claim requires — because the single-shot caller
(source line 1045) discards `generateSlides()`'s boolean result. -/
theorem singleShot_exit_code_counterexample :
    singleShotRun (Except.error "ENOENT: no such file or directory") =
      ⟨0, false, true, none⟩ := by
  decide

/-- C10 amended: on success the slide count is reported and the file is
written; on a read failure the error is reported and the output file is
never written — but the run exits with code 0 in both cases. -/
theorem singleShot_behavior :
    (∀ e : String, singleShotRun (.error e) = ⟨0, false, true, none⟩) ∧
    (∀ (md html : String), slideFragments (parseMarkdown md) = some html →
      singleShotRun (.ok md) = ⟨0, true, false, some (parseMarkdown md).length⟩) := by
  refine ⟨fun _ => rfl, ?_⟩
  intro md html h
  simp [singleShotRun, h]

/-- C10 amended witness: the one-line input `"hi"` renders successfully and
the run reports one slide. -/
theorem singleShot_behavior_witness :
    singleShotRun (Except.ok "hi") = ⟨0, true, false, some (parseMarkdown "hi").length⟩ :=
  singleShot_behavior.2 "hi"
    ("    <div class=\"slide\">\n        <div class=\"content\">\n            <p>hi</p>\n        </div>\n        <img src=\"favicon.png\" alt=\"Logo\" class=\"slide-logo\">\n        <span class=\"slide-number\">1/1</span>\n    </div>\n\n")
    (by decide)

/-- C2 counterexample: the line `"x: ,"` has a value containing no digit at
all, yet the code classifies it as a stat, because the test
`value.match(/[\d,]+/)` is satisfied by a bare comma — contradicting the
claim's "value … contains at least one digit". -/
theorem statRule_comma_only_counterexample :
    statCheck "x: ," = some ("x", ",") ∧
    (("," : String).toList.any Char.isDigit) = false := by
  decide

/-- C2 amended: a line (reaching the stat rule) is classified as a stat
iff it contains a colon, does not start with the literal prefix `http`,
its trimmed key is non-empty and contains no space character, and its
trimmed value is non-empty and contains at least one digit OR comma
character (the code's `/[\d,]+/` test); the key/value payloads are the
trimmed parts around the first colon.  `packages: 9,080,774` is a stat
with that key and value; `Total packages: 9,080,774` is not (space in the
key) and parses as a text block. -/
theorem statRule_characterization :
    (∀ line : String,
      (statCheck line).isSome = true ↔
        (line.toList.contains ':' = true ∧ jsStartsWith line "http" = false ∧
         keyOfLine line ≠ "" ∧ (keyOfLine line).toList.contains ' ' = false ∧
         valOfLine line ≠ "" ∧
         ∃ c ∈ (valOfLine line).toList, c.isDigit = true ∨ c = ',')) ∧
    (∀ (line : String) (k v : String), statCheck line = some (k, v) →
      k = keyOfLine line ∧ v = valOfLine line) ∧
    statCheck "packages: 9,080,774" = some ("packages", "9,080,774") ∧
    statCheck "Total packages: 9,080,774" = none ∧
    parseMarkdown "Total packages: 9,080,774" =
      [⟨.content, "", [.text "Total packages: 9,080,774"]⟩] := by
  refine ⟨?_, ?_, by decide, by decide, by decide⟩
  · intro line
    simp only [statCheck]
    split
    · rename_i h1
      split
      · rename_i h2
        simp only [Option.isSome_some, true_iff]
        refine ⟨h1.1, h1.2, h2.1, h2.2.2.1, h2.2.1, ?_⟩
        have ha := h2.2.2.2
        rw [List.any_eq_true] at ha
        obtain ⟨c, hc, hp⟩ := ha
        refine ⟨c, hc, ?_⟩
        simpa using hp
      · rename_i h2
        constructor
        · intro hco
          simp at hco
        · rintro ⟨-, -, hk, hks, hv, c, hc, hp⟩
          exfalso
          refine h2 ⟨hk, hv, hks, ?_⟩
          rw [List.any_eq_true]
          refine ⟨c, hc, ?_⟩
          simpa using hp
    · rename_i h1
      constructor
      · intro hco
        simp at hco
      · rintro ⟨ha, hb, -⟩
        exact absurd ⟨ha, hb⟩ h1
  · intro line k v h
    simp only [statCheck] at h
    split at h
    · split at h
      · simp only [Option.some.injEq, Prod.mk.injEq] at h
        exact ⟨h.1.symm, h.2.symm⟩
      · cases h
    · cases h

/-- C2 amended witness: the characterization applied at the qualifying
line `"downloads: 42"`. -/
theorem statRule_characterization_witness :
    keyOfLine "downloads: 42" = "downloads" ∧ valOfLine "downloads: 42" = "42" :=
  statRule_characterization.2.1 "downloads: 42" "downloads" "42" (by decide)

theorem strToListAppend (a b : String) : (a ++ b).toList = a.toList ++ b.toList := by
  have := String.data_append a b
  simp [String.toList]

theorem escapeCharL_no_lt (c : Char) : '<' ∉ escapeCharL c := by
  unfold escapeCharL
  split_ifs with h1 h2 h3 h4 h5
  · decide
  · decide
  · decide
  · decide
  · decide
  · simp
    intro he
    exact h2 he.symm

theorem escapeHtml_no_lt (s : String) : '<' ∉ (escapeHtml s).toList := by
  intro h
  have h' : '<' ∈ (s.toList.map escapeCharL).flatten := h
  rw [List.mem_flatten] at h'
  obtain ⟨l, hl, hc⟩ := h'
  rw [List.mem_map] at hl
  obtain ⟨c, -, rfl⟩ := hl
  exact escapeCharL_no_lt c hc

theorem mem_of_isPrefixOf {c : Char} :
    ∀ {l₁ l₂ : List Char}, List.isPrefixOf l₁ l₂ = true → c ∈ l₁ → c ∈ l₂ := by
  intro l₁
  induction l₁ with
  | nil =>
    intro l₂ _ hc
    cases hc
  | cons a as ih =>
    intro l₂ hp hc
    cases l₂ with
    | nil => simp [List.isPrefixOf] at hp
    | cons b bs =>
      simp only [List.isPrefixOf, Bool.and_eq_true, beq_iff_eq] at hp
      rcases List.mem_cons.mp hc with rfl | hmem
      · rw [hp.1]
        exact List.mem_cons_self _ _
      · exact List.mem_cons_of_mem b (ih hp.2 hmem)

theorem mem_of_listContainsSub {n : List Char} {c : Char} :
    ∀ {h : List Char}, listContainsSub n h = true → c ∈ n → c ∈ h := by
  intro h
  induction h with
  | nil =>
    intro hs hc
    simp [listContainsSub] at hs
    subst hs
    cases hc
  | cons a rest ih =>
    intro hs hc
    unfold listContainsSub at hs
    rw [Bool.or_eq_true] at hs
    rcases hs with hp | hr
    · exact mem_of_isPrefixOf hp hc
    · exact List.mem_cons_of_mem a (ih hr hc)

theorem splitOnChar_ne_nil (sep : Char) (l : List Char) : splitOnChar sep l ≠ [] := by
  induction l with
  | nil => simp [splitOnChar]
  | cons c rest ih =>
    by_cases h : c = sep
    · simp [splitOnChar, h]
    · rcases hr : splitOnChar sep rest with _ | ⟨a, as⟩
      · exact absurd hr ih
      · simp [splitOnChar, h, hr]

theorem not_mem_splitOnChar (sep : Char) :
    ∀ (l : List Char), ∀ p ∈ splitOnChar sep l, sep ∉ p := by
  intro l
  induction l with
  | nil =>
    intro p hp
    simp [splitOnChar] at hp
    subst hp
    simp
  | cons c rest ih =>
    intro p hp
    by_cases h : c = sep
    · simp [splitOnChar, h] at hp
      rcases hp with rfl | hp
      · simp
      · exact ih p hp
    · rcases hr : splitOnChar sep rest with _ | ⟨a, as⟩
      · exact absurd hr (splitOnChar_ne_nil sep rest)
      · simp [splitOnChar, h, hr] at hp
        rcases hp with rfl | hp
        · intro hmem
          rcases List.mem_cons.mp hmem with heq | hmem2
          · exact h heq.symm
          · exact ih a (by rw [hr]; exact List.mem_cons_self _ _) hmem2
        · exact ih p (by rw [hr]; exact List.mem_cons_of_mem _ hp)

theorem splitOnChar_no_sep (sep : Char) :
    ∀ (p : List Char), sep ∉ p → splitOnChar sep p = [p] := by
  intro p
  induction p with
  | nil => intro; rfl
  | cons c rest ih =>
    intro h
    have hc : ¬ (c = sep) := by
      intro he
      exact h (by rw [he]; exact List.mem_cons_self _ _)
    have hrest : sep ∉ rest := fun hm => h (List.mem_cons_of_mem _ hm)
    simp [splitOnChar, hc, ih hrest]

theorem splitOnChar_append_piece (sep : Char) :
    ∀ (p l a : List Char) (as : List (List Char)), sep ∉ p →
      splitOnChar sep l = a :: as → splitOnChar sep (p ++ l) = (p ++ a) :: as := by
  intro p
  induction p with
  | nil =>
    intro l a as _ h
    simpa using h
  | cons c q ih =>
    intro l a as hm hs
    have hc : ¬ (c = sep) := by
      intro he
      exact hm (by rw [he]; exact List.mem_cons_self _ _)
    have hq : sep ∉ q := fun hx => hm (List.mem_cons_of_mem _ hx)
    have hrec := ih l a as hq hs
    simp [splitOnChar, hc, hrec]

theorem splitOnChar_intercalateChar (sep : Char) :
    ∀ (parts : List (List Char)), parts ≠ [] → (∀ p ∈ parts, sep ∉ p) →
      splitOnChar sep (intercalateChar sep parts) = parts := by
  intro parts
  induction parts with
  | nil =>
    intro h
    exact absurd rfl h
  | cons p rest ih =>
    intro _ hall
    cases rest with
    | nil =>
      simp only [intercalateChar]
      exact splitOnChar_no_sep sep p (hall p (List.mem_cons_self _ _))
    | cons q rest2 =>
      have hrec := ih (by simp) fun x hx => hall x (List.mem_cons_of_mem _ hx)
      rw [intercalateChar]
      have hX : splitOnChar sep (sep :: intercalateChar sep (q :: rest2)) =
          [] :: splitOnChar sep (intercalateChar sep (q :: rest2)) := by
        simp [splitOnChar]
      rw [hrec] at hX
      have hfin := splitOnChar_append_piece sep p (sep :: intercalateChar sep (q :: rest2))
        [] (q :: rest2) (hall p (List.mem_cons_self _ _)) hX
      simpa using hfin

theorem wrapTerminalLine_no_newline (p : List Char) (h : '\n' ∉ p) :
    '\n' ∉ (wrapTerminalLine (String.mk p)).toList := by
  unfold wrapTerminalLine
  split
  · intro hmem
    rw [strToListAppend, strToListAppend] at hmem
    rcases List.mem_append.mp hmem with hx | hx
    · rcases List.mem_append.mp hx with hy | hy
      · exact absurd hy (by decide)
      · exact h hy
    · exact absurd hx (by decide)
  · exact h

/-- C6: code text is escaped for the five HTML-sensitive characters before
being embedded — no escaped output ever contains the substring `<script>`
(its output contains no raw `<` at all), and the five characters map to
their entities — and a `terminal` code block wraps every escaped line
beginning with `$` in a `terminal-prompt` span: the lines of the rendered
terminal text are exactly the wrapped escaped lines. -/
theorem codeEscaping :
    (∀ t : String, listContainsSub "<script>".toList (escapeHtml t).toList = false) ∧
    escapeHtml "&<>\"'" = "&amp;&lt;&gt;&quot;&#039;" ∧
    (∀ t : String,
      splitOnChar '\n' (renderCodeText "terminal" t).toList =
        (splitOnChar '\n' (escapeHtml t).toList).map
          fun p => (wrapTerminalLine (String.mk p)).toList) ∧
    (∀ l : String, jsStartsWith l "$" = true →
      wrapTerminalLine l = "<span class=\"terminal-prompt\">" ++ l ++ "</span>") := by
  refine ⟨?_, by decide, ?_, ?_⟩
  · intro t
    by_cases hb : listContainsSub "<script>".toList (escapeHtml t).toList = true
    · exact absurd (mem_of_listContainsSub hb (by decide)) (escapeHtml_no_lt t)
    · simpa using hb
  · intro t
    have hstep : renderCodeText "terminal" t =
        joinNL (((splitOnChar '\n' (escapeHtml t).toList).map String.mk).map
          wrapTerminalLine) := by
      simp [renderCodeText]
    rw [hstep]
    have heq : (joinNL (((splitOnChar '\n' (escapeHtml t).toList).map String.mk).map
        wrapTerminalLine)).toList =
        intercalateChar '\n' ((splitOnChar '\n' (escapeHtml t).toList).map
          fun p => (wrapTerminalLine (String.mk p)).toList) := by
      simp only [joinNL, List.map_map, String.toList]
      rfl
    rw [heq]
    apply splitOnChar_intercalateChar
    · simp
      exact splitOnChar_ne_nil '\n' (escapeHtml t).toList
    · intro p hp
      rw [List.mem_map] at hp
      obtain ⟨q, hq, rfl⟩ := hp
      exact wrapTerminalLine_no_newline q (not_mem_splitOnChar '\n' _ q hq)
  · intro l h
    unfold wrapTerminalLine
    rw [if_pos h]

/-- C6 witness: a `$`-prefixed line is wrapped in the prompt span. -/
theorem codeEscaping_witness :
    wrapTerminalLine "$ ls" = "<span class=\"terminal-prompt\">" ++ "$ ls" ++ "</span>" :=
  codeEscaping.2.2.2 "$ ls" (by decide)

theorem tagFilter_append (t : String) (a b : List ContentBlock) :
    tagFilter t (a ++ b) = tagFilter t a ++ tagFilter t b := by
  simp [tagFilter]

theorem tagFilter_tagFilter_self (t : String) (l : List ContentBlock) :
    tagFilter t (tagFilter t l) = tagFilter t l := by
  simp [tagFilter, List.filter_filter, Bool.and_self]

theorem tagFilter_tagFilter_ne (t t' : String) (hne : ¬ (t' = t)) (l : List ContentBlock) :
    tagFilter t (tagFilter t' l) = [] := by
  rw [tagFilter, tagFilter, List.filter_filter, List.filter_eq_nil_iff]
  intro b _
  simp only [Bool.and_eq_true, decide_eq_true_eq, not_and]
  intro h1 h2
  exact hne (h2 ▸ h1 ▸ rfl)

theorem blockTag_cases (b : ContentBlock) :
    b.tag = "subtitle" ∨ b.tag = "stat" ∨ b.tag = "list-item" ∨ b.tag = "text" ∨
    b.tag = "code" ∨ b.tag = "image" := by
  cases b <;> simp [ContentBlock.tag]

theorem tagFilter_eq_nil_of_not_six (t : String)
    (h1 : t ≠ "subtitle") (h2 : t ≠ "stat") (h3 : t ≠ "list-item") (h4 : t ≠ "text")
    (h5 : t ≠ "code") (h6 : t ≠ "image") (l : List ContentBlock) : tagFilter t l = [] := by
  rw [tagFilter, List.filter_eq_nil_iff]
  intro b _
  simp only [decide_eq_true_eq]
  intro he
  rcases blockTag_cases b with hb|hb|hb|hb|hb|hb <;> rw [hb] at he
  · exact h1 he.symm
  · exact h2 he.symm
  · exact h3 he.symm
  · exact h4 he.symm
  · exact h5 he.symm
  · exact h6 he.symm

theorem tagFilter_regroup (t : String) (l : List ContentBlock) :
    tagFilter t (regroupContent l) = tagFilter t l := by
  by_cases h1 : t = "subtitle"
  · subst h1
    simp only [regroupContent, tagFilter_append, tagFilter_tagFilter_self,
      tagFilter_tagFilter_ne "subtitle" "stat" (by decide),
      tagFilter_tagFilter_ne "subtitle" "list-item" (by decide),
      tagFilter_tagFilter_ne "subtitle" "text" (by decide),
      tagFilter_tagFilter_ne "subtitle" "code" (by decide),
      tagFilter_tagFilter_ne "subtitle" "image" (by decide)]
    simp
  by_cases h2 : t = "stat"
  · subst h2
    simp only [regroupContent, tagFilter_append, tagFilter_tagFilter_self,
      tagFilter_tagFilter_ne "stat" "subtitle" (by decide),
      tagFilter_tagFilter_ne "stat" "list-item" (by decide),
      tagFilter_tagFilter_ne "stat" "text" (by decide),
      tagFilter_tagFilter_ne "stat" "code" (by decide),
      tagFilter_tagFilter_ne "stat" "image" (by decide)]
    simp
  by_cases h3 : t = "list-item"
  · subst h3
    simp only [regroupContent, tagFilter_append, tagFilter_tagFilter_self,
      tagFilter_tagFilter_ne "list-item" "subtitle" (by decide),
      tagFilter_tagFilter_ne "list-item" "stat" (by decide),
      tagFilter_tagFilter_ne "list-item" "text" (by decide),
      tagFilter_tagFilter_ne "list-item" "code" (by decide),
      tagFilter_tagFilter_ne "list-item" "image" (by decide)]
    simp
  by_cases h4 : t = "text"
  · subst h4
    simp only [regroupContent, tagFilter_append, tagFilter_tagFilter_self,
      tagFilter_tagFilter_ne "text" "subtitle" (by decide),
      tagFilter_tagFilter_ne "text" "stat" (by decide),
      tagFilter_tagFilter_ne "text" "list-item" (by decide),
      tagFilter_tagFilter_ne "text" "code" (by decide),
      tagFilter_tagFilter_ne "text" "image" (by decide)]
    simp
  by_cases h5 : t = "code"
  · subst h5
    simp only [regroupContent, tagFilter_append, tagFilter_tagFilter_self,
      tagFilter_tagFilter_ne "code" "subtitle" (by decide),
      tagFilter_tagFilter_ne "code" "stat" (by decide),
      tagFilter_tagFilter_ne "code" "list-item" (by decide),
      tagFilter_tagFilter_ne "code" "text" (by decide),
      tagFilter_tagFilter_ne "code" "image" (by decide)]
    simp
  by_cases h6 : t = "image"
  · subst h6
    simp only [regroupContent, tagFilter_append, tagFilter_tagFilter_self,
      tagFilter_tagFilter_ne "image" "subtitle" (by decide),
      tagFilter_tagFilter_ne "image" "stat" (by decide),
      tagFilter_tagFilter_ne "image" "list-item" (by decide),
      tagFilter_tagFilter_ne "image" "text" (by decide),
      tagFilter_tagFilter_ne "image" "code" (by decide)]
    simp
  · rw [tagFilter_eq_nil_of_not_six t h1 h2 h3 h4 h5 h6 (regroupContent l),
        tagFilter_eq_nil_of_not_six t h1 h2 h3 h4 h5 h6 l]

theorem any_tagFilter_ne_code (t : String) (h : ¬ (t = "code")) (l : List ContentBlock) :
    (tagFilter t l).any isTerminalCodeB = false := by
  rw [List.any_eq_false]
  intro b hb
  rw [tagFilter, List.mem_filter] at hb
  obtain ⟨-, htag⟩ := hb
  simp only [decide_eq_true_eq] at htag
  cases b
  case code lang txt =>
    simp [ContentBlock.tag] at htag
    exact absurd htag.symm h
  all_goals simp [isTerminalCodeB]

theorem any_tagFilter_code (l : List ContentBlock) :
    (tagFilter "code" l).any isTerminalCodeB = l.any isTerminalCodeB := by
  induction l with
  | nil => rfl
  | cons b l ih =>
    cases b <;>
      simp [tagFilter, List.filter_cons, ContentBlock.tag, isTerminalCodeB] at ih ⊢ <;>
      rw [ih]

theorem any_regroup (l : List ContentBlock) :
    (regroupContent l).any isTerminalCodeB = l.any isTerminalCodeB := by
  simp only [regroupContent, List.any_append]
  rw [any_tagFilter_ne_code "subtitle" (by decide), any_tagFilter_ne_code "stat" (by decide),
      any_tagFilter_ne_code "list-item" (by decide), any_tagFilter_ne_code "text" (by decide),
      any_tagFilter_ne_code "image" (by decide), any_tagFilter_code]
  simp

/-- C5: a slide fragment depends on its content blocks only through their
grouping by category: replacing the content with its regrouped form
(subtitles, then stats, then list items, then texts, then code, then
images, each category in original relative order) leaves the rendered
fragment unchanged — the renderer emits the categories in that fixed order
no matter how the blocks were interleaved, preserving order only within
each category. -/
theorem renderSlide_groups_by_category :
    ∀ (s : Slide) (i n : Nat),
      renderSlide { s with content := regroupContent s.content } i n = renderSlide s i n := by
  intro s i n
  dsimp only [renderSlide]
  rw [tagFilter_regroup, tagFilter_regroup, tagFilter_regroup, tagFilter_regroup,
      tagFilter_regroup, tagFilter_regroup, any_regroup]
